import Mathlib

/-!
Verification of the streaming session core of the speech-to-text service
(`src/api/services/streaming_service.py` and
`src/api/controllers/streaming_controller.py`), as a shallow embedding.

Modelling conventions:
* Python `bytes`/`bytearray` values are `List ℕ` (each element one byte value).
* Python `int` is `ℤ` (or `ℕ` where the source value is a length/offset that
  is provably non-negative); truncated subtraction is noted where used.
* `float` quantities (samples, RMS, VAD ratios, thresholds) are `ℚ`, the
  exact-real reading of the source arithmetic.  The RMS comparison
  `sqrt(mean(square(audio))) < SILENCE_RMS` is embedded as
  `mean(square(audio)) < SILENCE_RMS ^ 2`, which is equivalent for
  non-negative reals since squaring is monotone on them.
* Fallible operations return `Option` / explicit result inductives; a Python
  exception that escapes the function is a distinguished constructor.
-/

namespace STT

/-! ### Audio configuration constants (streaming_service.py lines 32-53) -/

def SAMPLE_RATE : ℕ := 16000

def SAMPLE_WIDTH : ℕ := 2

/-- Source: `CHUNK_SEC = 2.5` -/
def CHUNK_SEC : ℚ := 5 / 2

/-- Source: `MIN_CHUNK_SEC = 1.0` -/
def MIN_CHUNK_SEC : ℚ := 1

/-- Source: `OVERLAP_SEC = 0.5` -/
def OVERLAP_SEC : ℚ := 1 / 2

/-- Source: `SILENCE_RMS = 0.005` -/
def SILENCE_RMS : ℚ := 5 / 1000

def VAD_FRAME_MS : ℕ := 20

def VAD_WINDOW_MS : ℕ := 400

/-- Source: `VAD_SPEECH_RATIO_THRESHOLD = 0.35` -/
def VAD_SPEECH_RATIO_THRESHOLD : ℚ := 35 / 100

/-- Source: `VAD_SPEECH_RATIO_THRESHOLD_NO_VAD = 1.1` -/
def VAD_SPEECH_RATIO_THRESHOLD_NO_VAD : ℚ := 11 / 10

def SUPPORTED_STREAM_FORMATS : List String := ["wav", "mp3", "m4a", "ogg", "webm", "flac"]

def RAW_STREAM_FORMATS : List String := ["s16le", "f32le"]

/-- Source: `STREAM_FORMAT_ALIASES = {"mp4": "m4a"}` -/
def STREAM_FORMAT_ALIASES : List (String × String) := [("mp4", "m4a")]

/-- Source: `self.bytes_per_sec = SAMPLE_RATE * SAMPLE_WIDTH` (per-session constant). -/
def bytes_per_sec : ℕ := SAMPLE_RATE * SAMPLE_WIDTH

/-- Source: `self.chunk_bytes = int(CHUNK_SEC * self.bytes_per_sec)`; `int()` truncates
toward zero, which on this non-negative value is the floor — the value is the
numeral, with `chunk_bytes_eq` proving it equal to the source expression. -/
def chunk_bytes : ℕ := 80000

/-- Source: `self.min_chunk_bytes = int(MIN_CHUNK_SEC * self.bytes_per_sec)`
(see `min_chunk_bytes_eq`). -/
def min_chunk_bytes : ℕ := 32000

/-- Source: `self.overlap_bytes = int(OVERLAP_SEC * self.bytes_per_sec)`
(see `overlap_bytes_eq`). -/
def overlap_bytes : ℕ := 16000

/-! ### AudioFormat (streaming_service.py lines 55-64) -/

/-- The state of an `AudioFormat` object after `__init__` has run. -/
structure AudioFormat where
  format_type : String
  sample_rate : ℤ
  deriving DecidableEq, Repr

/-- Source: `AudioFormat.__init__`: `self.sample_rate = sample_rate or SAMPLE_RATE`.
`sample_rate` is `Optional[int]`; both `None` and `0` are falsy in Python, so
both default to `SAMPLE_RATE`. -/
def AudioFormat.make (format_type : String) (sample_rate : Option ℤ) : AudioFormat :=
  { format_type := format_type
    sample_rate := match sample_rate with
      | none => (SAMPLE_RATE : ℤ)
      | some r => if r = 0 then (SAMPLE_RATE : ℤ) else r }

/-- Source: `AudioFormat.needs_conversion`:
`return not (self.format_type == "s16le" and self.sample_rate == SAMPLE_RATE)` -/
def AudioFormat.needs_conversion (a : AudioFormat) : Bool :=
  !(a.format_type = "s16le" && a.sample_rate = (SAMPLE_RATE : ℤ))

/-! ### Session buffer state (streaming_service.py lines 82-84) -/

/-- The mutable buffer state of a `StreamingSession`: `pcm_buffer` (a
`bytearray`, one `ℕ` per byte) and `transcribed_len` (a non-negative byte
offset; the Python value is an `int` that the operations keep in
`[0, len(pcm_buffer)]`). -/
structure SessionState where
  pcm_buffer : List ℕ
  transcribed_len : ℕ
  deriving DecidableEq, Repr

/-- Well-formedness: `0 <= transcribed_len <= len(pcm_buffer)`.  The lower
bound is built into the `ℕ` type of `transcribed_len`. -/
def SessionState.WF (s : SessionState) : Prop :=
  s.transcribed_len ≤ s.pcm_buffer.length

instance (s : SessionState) : Decidable s.WF := by
  unfold SessionState.WF; infer_instance

/-- Source: `add_audio_data` / `_append_pcm_chunk`: `self.pcm_buffer.extend(data)`. -/
def add_audio_data (s : SessionState) (data : List ℕ) : SessionState :=
  { s with pcm_buffer := s.pcm_buffer ++ data }

/-! ### PCM decoding (`_pcm16_to_float32`, lines 314-320) -/

/-- Reassemble one little-endian signed 16-bit sample from two bytes
(`np.frombuffer(pcm, dtype=np.int16)`). -/
def toInt16 (lo hi : ℕ) : ℤ :=
  let u := lo + 256 * hi
  if u < 32768 then (u : ℤ) else (u : ℤ) - 65536

/-- Pair up a byte list into int16 samples; `Option.none` models the
`ValueError` that `np.frombuffer` raises when the buffer length is not a
multiple of the element size. -/
def pairBytes : List ℕ → Option (List ℤ)
  | [] => some []
  | [_] => none
  | lo :: hi :: rest => (pairBytes rest).map (toInt16 lo hi :: ·)

/-- Source: `_pcm16_to_float32`: decode to int16 then scale by `1 / 32768.0`.
An empty input yields `np.zeros(0)`, i.e. `some []`. -/
def pcm16_to_float32 (pcm : List ℕ) : Option (List ℚ) :=
  (pairBytes pcm).map (List.map (fun v : ℤ => ((v : ℚ) / 32768)))

/-- Source: `np.mean(np.square(audio))` over the exact rationals; the empty case is
never reached by the caller (it returns earlier on `audio.size == 0`). -/
def meanSq (audio : List ℚ) : ℚ :=
  (audio.map (fun x => x ^ 2)).sum / (audio.length : ℚ)

/-! ### Chunk extraction (`get_audio_chunk_for_transcription`, lines 233-259) -/

/-- Result of `get_audio_chunk_for_transcription`: `noChunk` is Python `None`;
`raises` is the `ValueError` escaping from `np.frombuffer` on an odd-length
window; `chunk audio` is a returned float array. -/
inductive ChunkResult where
  | noChunk
  | raises
  | chunk (audio : List ℚ)
  deriving DecidableEq, Repr

/-- The byte window `pcm_buffer[chunk_start:chunk_end]` that
`get_audio_chunk_for_transcription` examines (`take = min(chunk_bytes,
available)`; `ℕ` subtraction supplies the `available <= 0` clamp). -/
def chunk_window (s : SessionState) : List ℕ :=
  (s.pcm_buffer.drop s.transcribed_len).take
    (min chunk_bytes (s.pcm_buffer.length - s.transcribed_len))

/-- Source: `get_audio_chunk_for_transcription`, returning the result together with
the state after the call (the state is unchanged except that a non-silent
extraction advances `transcribed_len` by `max(0, take - overlap_bytes)`). -/
def get_audio_chunk_for_transcription (s : SessionState) : ChunkResult × SessionState :=
  let chunk_start := s.transcribed_len
  let available : ℤ := (s.pcm_buffer.length : ℤ) - (chunk_start : ℤ)
  if available ≤ 0 then (.noChunk, s)
  else
    let tk : ℕ := min chunk_bytes available.toNat
    let chunk_pcm := (s.pcm_buffer.drop chunk_start).take tk
    match pcm16_to_float32 chunk_pcm with
    | none => (.raises, s)
    | some audio =>
      if audio.length = 0 then (.noChunk, s)
      else if meanSq audio < SILENCE_RMS ^ 2 then (.noChunk, s)
      else
        let advance : ℕ := (max 0 ((tk : ℤ) - (overlap_bytes : ℤ))).toNat
        (.chunk audio, { s with transcribed_len := s.transcribed_len + advance })

/-! ### Buffer trimming (`trim_buffer`, lines 284-290) -/

/-- Source: `keep_after = max(0, self.transcribed_len - (2 * self.chunk_bytes))`,
as a natural number (`ℕ` subtraction gives the `max(0, ·)` clamp). -/
def trim_amount (s : SessionState) : ℕ :=
  s.transcribed_len - 2 * chunk_bytes

/-- Source: `trim_buffer`: when `keep_after > 0`, `del self.pcm_buffer[:keep_after]`
and `self.transcribed_len -= keep_after`. -/
def trim_buffer (s : SessionState) : SessionState :=
  let keep_after : ℤ := max 0 ((s.transcribed_len : ℤ) - 2 * (chunk_bytes : ℤ))
  if 0 < keep_after then
    { pcm_buffer := s.pcm_buffer.drop keep_after.toNat
      transcribed_len := s.transcribed_len - keep_after.toNat }
  else s

/-! ### VAD speech ratio (`get_vad_speech_ratio`, lines 177-211) -/

/-- Source: `int((VAD_WINDOW_MS / 1000.0) * self.bytes_per_sec)`
(see `vad_tail_len_eq`). -/
def vad_tail_len : ℕ := 12800

/-- Source: `int(SAMPLE_RATE * (VAD_FRAME_MS / 1000.0)) * SAMPLE_WIDTH`
(see `vad_bytes_per_frame_eq`). -/
def vad_bytes_per_frame : ℕ := 640

/-- Source: `get_vad_speech_ratio`, parameterised by the frame classifier
`is_speech` (the external `webrtcvad.Vad.is_speech`, or the fallback that is
always false).  The loop evaluates `n_frames = max(1, len(tail) //
bytes_per_frame)` frames but breaks at the first incomplete one, so exactly
`len(tail) / bytes_per_frame` complete frames are counted; a per-frame
classifier exception counts as not-speech, which the `Bool` classifier
already models. -/
def get_vad_speech_ratio (is_speech : List ℕ → Bool) (buf : List ℕ) : ℚ :=
  let tail := buf.drop (buf.length - vad_tail_len)
  if tail.length = 0 then 0
  else if vad_bytes_per_frame = 0 then 0
  else
    let total := tail.length / vad_bytes_per_frame
    let frames := (List.range total).map
      (fun i => (tail.drop (i * vad_bytes_per_frame)).take vad_bytes_per_frame)
    let speech := (frames.filter is_speech).length
    if total = 0 then 0 else (speech : ℚ) / (total : ℚ)

/-! ### Chunk readiness (`should_transcribe`, lines 213-231) -/

/-- Source: `should_transcribe`, parameterised by `has_real_vad` (the session's copy
of the module flag `_HAS_REAL_VAD`) and by the real frame classifier. -/
def should_transcribe (s : SessionState) (has_real_vad : Bool)
    (is_speech : List ℕ → Bool) (force : Bool) : Bool :=
  let new_audio_len : ℤ := (s.pcm_buffer.length : ℤ) - (s.transcribed_len : ℤ)
  if force then new_audio_len > 0
  else if new_audio_len < (min_chunk_bytes : ℤ) then false
  else if (chunk_bytes : ℤ) ≤ new_audio_len then true
  else
    let ratio : ℚ := if has_real_vad then get_vad_speech_ratio is_speech s.pcm_buffer else 0
    let threshold : ℚ :=
      if has_real_vad then VAD_SPEECH_RATIO_THRESHOLD else VAD_SPEECH_RATIO_THRESHOLD_NO_VAD
    ratio < threshold

/-! ### JSON values and the handshake parser (`parse_handshake`, lines 333-376) -/

/-- A JSON value as produced by `json.loads`.  JSON numbers are modelled as
integers (`ℤ`); the handshake fields of interest are integer-valued. -/
inductive JValue where
  | jnull
  | jbool (b : Bool)
  | jnum (n : ℤ)
  | jstr (s : String)
  | jarr (elems : List JValue)
  | jobj (fields : List (String × JValue))
  deriving Repr

/-- Source: `dict.get(key)`: `json.loads` gives a dict with unique keys (on duplicate
keys the last wins, modelled by searching the reversed field list). -/
def jget (fields : List (String × JValue)) (key : String) : Option JValue :=
  (fields.reverse.find? (fun p => p.1 == key)).map Prod.snd

/-- Python truthiness of a JSON value. -/
def jtruthy : JValue → Bool
  | .jnull => false
  | .jbool b => b
  | .jnum n => n != 0
  | .jstr s => s != ""
  | .jarr l => !l.isEmpty
  | .jobj f => !f.isEmpty

mutual

/-- Python `repr` of a JSON value (quote-escaping inside strings is not
modelled; only containment in the fixed format-name sets matters here, and
every container or quoted repr contains a bracket or quote character that no
supported format name has). -/
def pyRepr : JValue → String
  | .jnull => "None"
  | .jbool true => "True"
  | .jbool false => "False"
  | .jnum n => toString n
  | .jstr s => "\x27" ++ s ++ "\x27"
  | .jarr l => "[" ++ String.intercalate ", " (pyReprList l) ++ "]"
  | .jobj f => "\x7b" ++ String.intercalate ", " (pyReprFields f) ++ "\x7d"

def pyReprList : List JValue → List String
  | [] => []
  | v :: vs => pyRepr v :: pyReprList vs

def pyReprFields : List (String × JValue) → List String
  | [] => []
  | (k, v) :: fs => ("\x27" ++ k ++ "\x27: " ++ pyRepr v) :: pyReprFields fs

end

/-- Python `str` of a JSON value (`str` and `repr` agree except on strings). -/
def pyStr : JValue → String
  | .jstr s => s
  | v => pyRepr v

/-- Python `str.lower()` as it acts on the ASCII range (the format and
model-size tags of interest are ASCII). -/
def lowerChar (c : Char) : Char :=
  if 65 ≤ c.toNat ∧ c.toNat ≤ 90 then Char.ofNat (c.toNat + 32) else c

def pyLower (s : String) : String := ⟨s.data.map lowerChar⟩

/-- The whitespace characters stripped by Python around numeric literals and
by `str.strip()` (ASCII part; unicode whitespace is not modelled). -/
def isPySpace (c : Char) : Bool :=
  c = ' ' || c = '\t' || c = '\n' || c = '\r' || c = '\x0b' || c = '\x0c'

/-- Python `int(str)`: optional surrounding whitespace, optional sign, at
least one ASCII digit (underscore grouping is not modelled). -/
def parseIntStr (s : String) : Option ℤ :=
  let t := ((s.data.dropWhile isPySpace).reverse.dropWhile isPySpace).reverse
  let core := match t with
    | c :: rest => if c = '-' ∨ c = '+' then rest else t
    | [] => t
  if core ≠ [] ∧ core.all Char.isDigit then
    let mag : ℕ := core.foldl (fun acc c => acc * 10 + (c.toNat - 48)) 0
    some (if t.head? = some '-' then -(mag : ℤ) else (mag : ℤ))
  else none

/-- Outcome of Python `int(v)` on a JSON value. -/
inductive PyIntResult where
  | ok (n : ℤ)
  | valueError  -- int("...") on a non-numeric string
  | typeError   -- int(None), int(list), int(dict)
  deriving DecidableEq, Repr

def pyInt : JValue → PyIntResult
  | .jnum n => .ok n
  | .jbool b => .ok (if b then 1 else 0)
  | .jstr s =>
      match parseIntStr s with
      | some n => .ok n
      | none => .valueError
  | .jnull => .typeError
  | .jarr _ => .typeError
  | .jobj _ => .typeError

/-- Source: `STREAM_FORMAT_ALIASES.get(fmt_raw, fmt_raw)` -/
def lookupAlias (fmt_raw : String) : String :=
  match STREAM_FORMAT_ALIASES.find? (fun p => p.1 == fmt_raw) with
  | some p => p.2
  | none => fmt_raw

/-- Result of `StreamingService.parse_handshake`:
* `ok` — the returned `(AudioFormat, model_size)` pair;
* `invalid` — the re-raised `ValueError("Invalid handshake: ...")`
  (`json.JSONDecodeError` is a `ValueError` subclass, so malformed JSON also
  lands here);
* `uncaught` — an exception type outside
  `(json.JSONDecodeError, KeyError, ValueError)` escaping the function, e.g.
  the `TypeError` from `int()` applied to a null/array/object rate value. -/
inductive ParseResult where
  | ok (fmt : AudioFormat) (model_size : Option String)
  | invalid (reason : String)
  | uncaught
  deriving DecidableEq, Repr

/-- The allow-list of model sizes (line 368). -/
def ALLOWED_MODEL_SIZES : List String := ["tiny", "base", "small", "medium"]

/-- Source: `data.get("type") != "start"`, negated: true iff the value is the JSON
string `"start"` (any other value, or an absent key, compares unequal). -/
def isStartType : Option JValue → Bool
  | some (.jstr s) => s == "start"
  | _ => false

/-- Source: `fallback_model_size` contributes only when truthy (non-empty). -/
def truthyStr : Option String → Option String
  | some f => if f = "" then none else some f
  | none => none

/-- Lines 355-356:
`fmt = STREAM_FORMAT_ALIASES.get(str(data.get("format", "webm") or "").lower(), ...)` -/
def normalized_format (data : List (String × JValue)) : String :=
  let fmt_val := (jget data "format").getD (.jstr "webm")
  lookupAlias (pyLower (if jtruthy fmt_val then pyStr fmt_val else ""))

/-- Line 364: `model_size = data.get("model_size") or fallback_model_size`,
kept only when truthy (the subsequent `if model_size:`). -/
def effective_model_size (data : List (String × JValue))
    (fallback_model_size : Option String) : Option String :=
  match jget data "model_size" with
  | some v => if jtruthy v then some (pyStr v) else truthyStr fallback_model_size
  | none => truthyStr fallback_model_size

/-- Source: `StreamingService.parse_handshake`.  `message = none` models a string
`json.loads` rejects; `message = some data` models a JSON object (a valid
non-object JSON payload would make `data.get` raise `AttributeError`, a path
outside this model). -/
def parse_handshake (message : Option (List (String × JValue)))
    (fallback_model_size : Option String) : ParseResult :=
  match message with
  | none => .invalid "malformed JSON"
  | some data =>
    if ¬ (isStartType (jget data "type")) then .invalid "Invalid handshake type"
    else
      let fmt := normalized_format data
      if ¬ ((SUPPORTED_STREAM_FORMATS ++ RAW_STREAM_FORMATS).contains fmt) then
        .invalid "Unsupported format"
      else
        -- rate = int(data.get("rate", 0)) or None
        match pyInt ((jget data "rate").getD (.jnum 0)) with
        | .typeError => .uncaught
        | .valueError => .invalid "invalid literal for int"
        | .ok n =>
          let rate : Option ℤ := if n = 0 then none else some n
          match effective_model_size data fallback_model_size with
          | some m =>
            if ALLOWED_MODEL_SIZES.contains (pyLower m) then
              .ok (AudioFormat.make fmt rate) (some (pyLower m))
            else .invalid "Invalid model size"
          | none => .ok (AudioFormat.make fmt rate) none

/-- Outcome of the handshake phase of `ws_transcribe`
(streaming_controller.py lines 55-71):
* a `ValueError` from `parse_handshake` is caught and answered with
  `websocket.close(code=1002)` before `create_session` runs;
* any other exception escapes to the outer handler, which closes with
  code 1011 (also before `create_session`);
* on success the session is created and the connection enters streaming. -/
inductive HandshakeOutcome where
  | rejected1002
  | internalError1011
  | sessionStarted (fmt : AudioFormat) (model_size : Option String)
  deriving DecidableEq, Repr

def handshake_outcome (message : Option (List (String × JValue)))
    (query_model_size : Option String) : HandshakeOutcome :=
  match parse_handshake message query_model_size with
  | .invalid _ => .rejected1002
  | .uncaught => .internalError1011
  | .ok f m => .sessionStarted f m

/-- The bad-handshake conditions enumerated by the spec for a JSON-object
message: wrong (or missing) `type`, a normalized format outside the
supported/raw sets, or an effective model size outside the allow-list. -/
def handshake_bad (data : List (String × JValue)) (fb : Option String) : Prop :=
  isStartType (jget data "type") = false
  ∨ (SUPPORTED_STREAM_FORMATS ++ RAW_STREAM_FORMATS).contains (normalized_format data) = false
  ∨ (∃ m, effective_model_size data fb = some m
      ∧ ALLOWED_MODEL_SIZES.contains (pyLower m) = false)

/-! ### Transcription dispatcher (`transcribe_chunk`, lines 261-282, and
`process_audio_chunk`, lines 419-431) -/

/-- One recognition sub-segment `{start, end, text}` (the `end` field is
renamed `stop`, `end` being a Lean keyword); times are chunk-relative. -/
structure Segment where
  start : ℚ
  stop : ℚ
  text : String
  deriving DecidableEq, Repr

/-- The outgoing `{"type": "delta", "append": ..., "segments": ...}` message
(the constant `type` field is implicit in the Lean type). -/
structure Delta where
  append : String
  segments : List Segment
  deriving DecidableEq, Repr

/-- Python `str.strip()`. -/
def pyStrip (s : String) : String :=
  ⟨((s.data.dropWhile isPySpace).reverse.dropWhile isPySpace).reverse⟩

/-- Source: `StreamingSession.transcribe_chunk`, as a function of the recognition
result (`result.text`, which may be `None`, and `result.segments`):
`text = (result.text or "").strip(); if not text: return {}`.  The empty
dict `{}` is modelled as `none`, a non-empty delta dict as `some`. -/
def transcribe_chunk (result_text : Option String) (result_segments : List Segment) :
    Option Delta :=
  let text := pyStrip (match result_text with
    | some t => if t = "" then "" else t
    | none => "")
  if text = "" then none
  else some { append := text, segments := result_segments }

/-- The tail of `StreamingService.process_audio_chunk`:
`if result: return result` / `return None` — the falsy empty dict becomes
`None`, so the controller (`if result: await websocket.send_json(result)`)
emits nothing. -/
def emit_if_truthy (result : Option Delta) : Option Delta :=
  match result with
  | some d => some d
  | none => none

/-- A concrete non-silent test buffer: `m` copies of the byte pair
`(0x00, 0x10)`, i.e. `m` samples of value 4096 (amplitude 1/8). -/
def patBuf (m : ℕ) : List ℕ := (List.replicate m ([0, 16] : List ℕ)).flatten

/-! ### Helper lemmas about chunk extraction and trimming -/

theorem chunk_bytes_eq : (chunk_bytes : ℤ) = Rat.floor (CHUNK_SEC * (bytes_per_sec : ℚ)) := by
  norm_num [chunk_bytes, CHUNK_SEC, bytes_per_sec, SAMPLE_RATE, SAMPLE_WIDTH, Rat.floor]

theorem min_chunk_bytes_eq :
    (min_chunk_bytes : ℤ) = Rat.floor (MIN_CHUNK_SEC * (bytes_per_sec : ℚ)) := by
  norm_num [min_chunk_bytes, MIN_CHUNK_SEC, bytes_per_sec, SAMPLE_RATE, SAMPLE_WIDTH, Rat.floor]

theorem overlap_bytes_eq :
    (overlap_bytes : ℤ) = Rat.floor (OVERLAP_SEC * (bytes_per_sec : ℚ)) := by
  norm_num [overlap_bytes, OVERLAP_SEC, bytes_per_sec, SAMPLE_RATE, SAMPLE_WIDTH, Rat.floor]

theorem vad_tail_len_eq :
    (vad_tail_len : ℤ) = Rat.floor (((VAD_WINDOW_MS : ℚ) / 1000) * (bytes_per_sec : ℚ)) := by
  norm_num [vad_tail_len, VAD_WINDOW_MS, bytes_per_sec, SAMPLE_RATE, SAMPLE_WIDTH, Rat.floor]

theorem vad_bytes_per_frame_eq :
    (vad_bytes_per_frame : ℤ)
      = Rat.floor ((SAMPLE_RATE : ℚ) * ((VAD_FRAME_MS : ℚ) / 1000)) * (SAMPLE_WIDTH : ℤ) := by
  norm_num [vad_bytes_per_frame, VAD_FRAME_MS, SAMPLE_RATE, SAMPLE_WIDTH, Rat.floor]


theorem get_chunk_of_ge (s : SessionState) (h : s.pcm_buffer.length ≤ s.transcribed_len) :
    get_audio_chunk_for_transcription s = (.noChunk, s) := by
  unfold get_audio_chunk_for_transcription
  rw [if_pos (by omega)]

theorem get_chunk_of_lt (s : SessionState) (h : s.transcribed_len < s.pcm_buffer.length) :
    get_audio_chunk_for_transcription s =
      match pcm16_to_float32 (chunk_window s) with
      | none => (.raises, s)
      | some audio =>
        if audio.length = 0 then (.noChunk, s)
        else if meanSq audio < SILENCE_RMS ^ 2 then (.noChunk, s)
        else (.chunk audio,
          { s with transcribed_len := s.transcribed_len +
              (min chunk_bytes (s.pcm_buffer.length - s.transcribed_len) - overlap_bytes) }) := by
  unfold get_audio_chunk_for_transcription chunk_window
  rw [if_neg (by omega)]
  have h2 : ((s.pcm_buffer.length : ℤ) - (s.transcribed_len : ℤ)).toNat
      = s.pcm_buffer.length - s.transcribed_len := by omega
  rw [h2]
  have h3 : (max 0 (((min chunk_bytes (s.pcm_buffer.length - s.transcribed_len) : ℕ) : ℤ)
      - (overlap_bytes : ℤ))).toNat
      = min chunk_bytes (s.pcm_buffer.length - s.transcribed_len) - overlap_bytes := by omega
  simp only [h3]

theorem get_chunk_of_raises (s : SessionState) (hlt : s.transcribed_len < s.pcm_buffer.length)
    (hdec : pcm16_to_float32 (chunk_window s) = none) :
    get_audio_chunk_for_transcription s = (.raises, s) := by
  rw [get_chunk_of_lt s hlt, hdec]

theorem get_chunk_of_decode (s : SessionState) (hlt : s.transcribed_len < s.pcm_buffer.length)
    (audio : List ℚ) (hdec : pcm16_to_float32 (chunk_window s) = some audio) :
    get_audio_chunk_for_transcription s =
      (if audio.length = 0 then (.noChunk, s)
       else if meanSq audio < SILENCE_RMS ^ 2 then (.noChunk, s)
       else (.chunk audio,
         { s with transcribed_len := s.transcribed_len +
             (min chunk_bytes (s.pcm_buffer.length - s.transcribed_len) - overlap_bytes) })) := by
  rw [get_chunk_of_lt s hlt, hdec]

/-- Uniform description of `trim_buffer`: it drops `trim_amount s` bytes from
the front and subtracts the same amount from the offset. -/
theorem trim_buffer_eq (s : SessionState) :
    trim_buffer s =
      { pcm_buffer := s.pcm_buffer.drop (trim_amount s)
        transcribed_len := s.transcribed_len - trim_amount s } := by
  unfold trim_buffer trim_amount
  by_cases h : (0 : ℤ) < max 0 ((s.transcribed_len : ℤ) - 2 * (chunk_bytes : ℤ))
  · rw [if_pos h]
    have : (max 0 ((s.transcribed_len : ℤ) - 2 * (chunk_bytes : ℤ))).toNat
        = s.transcribed_len - 2 * chunk_bytes := by omega
    rw [this]
  · rw [if_neg h]
    have h0 : s.transcribed_len - 2 * chunk_bytes = 0 := by omega
    cases s with
    | mk buf tl => simp_all

/-- The advanced offset of a non-silent extraction stays within the buffer. -/
theorem wf_advance (s : SessionState) (hlt : s.transcribed_len < s.pcm_buffer.length) :
    ({ s with transcribed_len := s.transcribed_len +
        (min chunk_bytes (s.pcm_buffer.length - s.transcribed_len) - overlap_bytes) }
      : SessionState).WF := by
  have h2 : min chunk_bytes (s.pcm_buffer.length - s.transcribed_len) - overlap_bytes
      ≤ s.pcm_buffer.length - s.transcribed_len :=
    le_trans (Nat.sub_le _ _) (min_le_right _ _)
  exact le_trans (Nat.add_le_add_left h2 _) (le_of_eq (Nat.add_sub_cancel' hlt.le))

/-- The state after `get_audio_chunk_for_transcription` is either untouched
(no chunk, decode error, or silence) or advanced by
`max(0, take - overlap_bytes)`. -/
theorem get_chunk_state_cases (s : SessionState) :
    (get_audio_chunk_for_transcription s).2 = s
  ∨ (s.transcribed_len < s.pcm_buffer.length ∧
     (get_audio_chunk_for_transcription s).2 = { s with transcribed_len :=
        s.transcribed_len +
          (min chunk_bytes (s.pcm_buffer.length - s.transcribed_len) - overlap_bytes) }) := by
  rcases le_or_lt s.pcm_buffer.length s.transcribed_len with hle | hlt
  · left; rw [get_chunk_of_ge s hle]
  · cases hm : pcm16_to_float32 (chunk_window s) with
    | none => left; rw [get_chunk_of_raises s hlt hm]
    | some audio =>
      by_cases hz : audio.length = 0
      · left; rw [get_chunk_of_decode s hlt audio hm, if_pos hz]
      · by_cases hq : meanSq audio < SILENCE_RMS ^ 2
        · left; rw [get_chunk_of_decode s hlt audio hm, if_neg hz, if_pos hq]
        · right
          exact ⟨hlt, by rw [get_chunk_of_decode s hlt audio hm, if_neg hz, if_neg hq]⟩

/-! ### Claims -/

/-- C3: every session operation preserves `0 <= transcribed_len <=
len(pcm_buffer)` (the lower bound is the `ℕ` type); `transcribed_len` is
unchanged by appends, non-decreasing under chunk extraction, and
`trim_buffer` removes exactly `trim_amount s` bytes from the front of the
buffer while subtracting the same amount from `transcribed_len`, leaving the
offset's relative position (`len(pcm_buffer) - transcribed_len`) unchanged. -/
theorem buffer_offset_invariants (s : SessionState) (data : List ℕ) (hWF : s.WF) :
    (add_audio_data s data).WF
  ∧ (add_audio_data s data).transcribed_len = s.transcribed_len
  ∧ (get_audio_chunk_for_transcription s).2.WF
  ∧ s.transcribed_len ≤ (get_audio_chunk_for_transcription s).2.transcribed_len
  ∧ (get_audio_chunk_for_transcription s).2.pcm_buffer = s.pcm_buffer
  ∧ (trim_buffer s).WF
  ∧ trim_buffer s = { pcm_buffer := s.pcm_buffer.drop (trim_amount s),
                      transcribed_len := s.transcribed_len - trim_amount s }
  ∧ trim_amount s ≤ s.transcribed_len
  ∧ (trim_buffer s).pcm_buffer.length - (trim_buffer s).transcribed_len
      = s.pcm_buffer.length - s.transcribed_len := by
  unfold SessionState.WF at hWF
  have hadd : (add_audio_data s data).WF ∧ (add_audio_data s data).transcribed_len
      = s.transcribed_len := by
    constructor
    · unfold SessionState.WF add_audio_data
      simp only [List.length_append]
      omega
    · rfl
  have htrim₀ : trim_buffer s =
      { pcm_buffer := s.pcm_buffer.drop (trim_amount s),
        transcribed_len := s.transcribed_len - trim_amount s } := trim_buffer_eq s
  have hta : trim_amount s ≤ s.transcribed_len := by
    unfold trim_amount; omega
  have htrim : (trim_buffer s).WF := by
    rw [htrim₀]
    unfold SessionState.WF
    simp only [List.length_drop]
    omega
  have hrel : (trim_buffer s).pcm_buffer.length - (trim_buffer s).transcribed_len
      = s.pcm_buffer.length - s.transcribed_len := by
    rw [htrim₀]
    simp only [List.length_drop]
    omega
  have hchunk : (get_audio_chunk_for_transcription s).2.WF
      ∧ s.transcribed_len ≤ (get_audio_chunk_for_transcription s).2.transcribed_len
      ∧ (get_audio_chunk_for_transcription s).2.pcm_buffer = s.pcm_buffer := by
    rcases get_chunk_state_cases s with h | ⟨hlt, h⟩
    · rw [h]
      exact ⟨hWF, le_refl _, rfl⟩
    · rw [h]
      exact ⟨wf_advance s hlt, Nat.le_add_right _ _, rfl⟩
  exact ⟨hadd.1, hadd.2, hchunk.1, hchunk.2.1, hchunk.2.2, htrim, htrim₀, hta, hrel⟩

/-- C3 witness: the invariant theorem applied at the concrete state
`⟨[1,2,3], 1⟩` with appended data `[4]`. -/
theorem buffer_offset_invariants_witness :
    (⟨[1, 2, 3], 1⟩ : SessionState).WF
  ∧ ((add_audio_data ⟨[1, 2, 3], 1⟩ [4]).WF
  ∧ (add_audio_data ⟨[1, 2, 3], 1⟩ [4]).transcribed_len
      = (⟨[1, 2, 3], 1⟩ : SessionState).transcribed_len
  ∧ (get_audio_chunk_for_transcription ⟨[1, 2, 3], 1⟩).2.WF
  ∧ (⟨[1, 2, 3], 1⟩ : SessionState).transcribed_len
      ≤ (get_audio_chunk_for_transcription ⟨[1, 2, 3], 1⟩).2.transcribed_len
  ∧ (get_audio_chunk_for_transcription ⟨[1, 2, 3], 1⟩).2.pcm_buffer
      = (⟨[1, 2, 3], 1⟩ : SessionState).pcm_buffer
  ∧ (trim_buffer ⟨[1, 2, 3], 1⟩).WF
  ∧ trim_buffer ⟨[1, 2, 3], 1⟩
      = { pcm_buffer := (⟨[1, 2, 3], 1⟩ : SessionState).pcm_buffer.drop
            (trim_amount ⟨[1, 2, 3], 1⟩),
          transcribed_len := (⟨[1, 2, 3], 1⟩ : SessionState).transcribed_len
            - trim_amount ⟨[1, 2, 3], 1⟩ }
  ∧ trim_amount ⟨[1, 2, 3], 1⟩ ≤ (⟨[1, 2, 3], 1⟩ : SessionState).transcribed_len
  ∧ (trim_buffer ⟨[1, 2, 3], 1⟩).pcm_buffer.length
      - (trim_buffer ⟨[1, 2, 3], 1⟩).transcribed_len
      = (⟨[1, 2, 3], 1⟩ : SessionState).pcm_buffer.length
      - (⟨[1, 2, 3], 1⟩ : SessionState).transcribed_len) :=
  ⟨by decide, buffer_offset_invariants ⟨[1, 2, 3], 1⟩ [4] (by decide)⟩

/-- C4: when the decoded extraction window has RMS energy below
`SILENCE_RMS` (equivalently, mean square below `SILENCE_RMS ^ 2`),
`get_audio_chunk_for_transcription` returns `None` and leaves the whole
state — in particular `transcribed_len` — unchanged, so the silent prefix
stays inside the next extraction window once more audio is appended. -/
theorem silent_window_no_advance (s : SessionState) (audio : List ℚ)
    (hdec : pcm16_to_float32 (chunk_window s) = some audio)
    (hsil : meanSq audio < SILENCE_RMS ^ 2) :
    get_audio_chunk_for_transcription s = (.noChunk, s) := by
  rcases le_or_lt s.pcm_buffer.length s.transcribed_len with hle | hlt
  · exact get_chunk_of_ge s hle
  · rw [get_chunk_of_decode s hlt audio hdec]
    by_cases hz : audio.length = 0
    · rw [if_pos hz]
    · rw [if_neg hz, if_pos hsil]

/-- C4 witness: a two-byte all-zero buffer decodes to the silent sample list
`[0]`, and extraction returns no chunk with the state unchanged. -/
theorem silent_window_no_advance_witness :
    pcm16_to_float32 (chunk_window ⟨[0, 0], 0⟩) = some [0]
  ∧ meanSq [0] < SILENCE_RMS ^ 2
  ∧ get_audio_chunk_for_transcription ⟨[0, 0], 0⟩ = (.noChunk, ⟨[0, 0], 0⟩) := by
  have hw : chunk_window ⟨[0, 0], 0⟩ = [0, 0] := by decide
  have hdec : pcm16_to_float32 (chunk_window ⟨[0, 0], 0⟩) = some [0] := by
    rw [hw]
    simp [pcm16_to_float32, pairBytes, toInt16]
  have hsil : meanSq [0] < SILENCE_RMS ^ 2 := by
    norm_num [meanSq, SILENCE_RMS]
  exact ⟨hdec, hsil, silent_window_no_advance ⟨[0, 0], 0⟩ [0] hdec hsil⟩

/-- C1 counterexample: with the fallback classifier (`has_real_vad = false`),
a buffer holding exactly `min_chunk_bytes = 32000` un-transcribed bytes — in
the claimed range `min_chunk_bytes <= new_audio_len < chunk_bytes` — makes
`should_transcribe(force=false)` return `true`, not `false` as claimed: the
fallback path compares `ratio = 0.0` against the threshold `1.1`, and
`0.0 < 1.1` holds, so the VAD pause branch always fires. -/
theorem vad_fallback_counterexample :
    min_chunk_bytes ≤ 32000 ∧ 32000 < chunk_bytes
  ∧ should_transcribe ⟨List.replicate 32000 0, 0⟩ false (fun _ => false) false = true := by
  refine ⟨by decide, by decide, ?_⟩
  simp only [should_transcribe, List.length_replicate]
  norm_num [min_chunk_bytes, chunk_bytes, VAD_SPEECH_RATIO_THRESHOLD_NO_VAD]

/-- C1 amended: when only the fallback (always-false) frame classifier is
available (`has_real_vad = false`), the VAD pause branch of
`should_transcribe` ALWAYS fires: for every buffer state with
`min_chunk_bytes <= un-transcribed length < chunk_bytes`,
`should_transcribe(force=false)` returns `true` — the threshold `1.1`
exceeds every possible ratio (the fallback path uses ratio `0.0`), so
chunking degrades to minimum-size triggering rather than full-target-size
triggering. -/
theorem vad_fallback_branch_always_fires (s : SessionState) (is_speech : List ℕ → Bool)
    (hmin : (min_chunk_bytes : ℤ) ≤ (s.pcm_buffer.length : ℤ) - (s.transcribed_len : ℤ))
    (hmax : (s.pcm_buffer.length : ℤ) - (s.transcribed_len : ℤ) < (chunk_bytes : ℤ)) :
    should_transcribe s false is_speech false = true := by
  simp only [should_transcribe]
  rw [if_neg (by simp), if_neg (by omega), if_neg (by omega)]
  norm_num [VAD_SPEECH_RATIO_THRESHOLD_NO_VAD]

/-- C1 witness: the amended theorem instantiated at a 32000-byte buffer. -/
theorem vad_fallback_branch_always_fires_witness :
    should_transcribe ⟨List.replicate 32000 0, 0⟩ false (fun _ => false) false = true :=
  vad_fallback_branch_always_fires ⟨List.replicate 32000 0, 0⟩ (fun _ => false)
    (by simp only [List.length_replicate]; norm_num [min_chunk_bytes])
    (by simp only [List.length_replicate]; norm_num [chunk_bytes])

/-- C2: `should_transcribe(force=true)` is true iff at least one
un-transcribed byte exists; with `force=false` it is false below the
minimum chunk size and true at or above the target chunk size, for every
classifier and for both values of `has_real_vad`. -/
theorem should_transcribe_size_rules (s : SessionState) (hv : Bool)
    (is_speech : List ℕ → Bool) :
    (should_transcribe s hv is_speech true = true
        ↔ s.transcribed_len < s.pcm_buffer.length)
  ∧ ((s.pcm_buffer.length : ℤ) - (s.transcribed_len : ℤ) < (min_chunk_bytes : ℤ) →
      should_transcribe s hv is_speech false = false)
  ∧ ((chunk_bytes : ℤ) ≤ (s.pcm_buffer.length : ℤ) - (s.transcribed_len : ℤ) →
      should_transcribe s hv is_speech false = true) := by
  refine ⟨?_, ?_, ?_⟩
  · simp only [should_transcribe]
    rw [if_pos trivial]
    simp only [decide_eq_true_eq]
    omega
  · intro h
    simp only [should_transcribe]
    rw [if_neg (by simp), if_pos h]
  · intro h
    have hmin : min_chunk_bytes ≤ chunk_bytes := by decide
    simp only [should_transcribe]
    rw [if_neg (by simp), if_neg (by omega), if_pos h]

/-- C2 witness: the three rules applied at concrete buffer states. -/
theorem should_transcribe_size_rules_witness :
    should_transcribe ⟨[0, 0], 0⟩ false (fun _ => false) true = true
  ∧ should_transcribe ⟨[0, 0], 0⟩ false (fun _ => false) false = false
  ∧ should_transcribe ⟨List.replicate 80000 0, 0⟩ false (fun _ => false) false = true :=
  ⟨(should_transcribe_size_rules ⟨[0, 0], 0⟩ false (fun _ => false)).1.mpr (by decide),
   (should_transcribe_size_rules ⟨[0, 0], 0⟩ false (fun _ => false)).2.1 (by decide),
   (should_transcribe_size_rules ⟨List.replicate 80000 0, 0⟩ false (fun _ => false)).2.2
     (by simp only [List.length_replicate]; norm_num [chunk_bytes])⟩

/-- C8: `needs_conversion()` (a total function on constructed format
descriptors) returns `false` exactly when the encoding is the canonical raw
PCM tag `"s16le"` and the defaulted sample rate equals the canonical
`SAMPLE_RATE = 16000`; every other encoding/rate combination requires
conversion. -/
theorem needs_conversion_characterization (format_type : String) (sample_rate : Option ℤ) :
    (AudioFormat.make format_type sample_rate).needs_conversion = false
      ↔ (format_type = "s16le"
          ∧ (AudioFormat.make format_type sample_rate).sample_rate = 16000) := by
  unfold AudioFormat.make AudioFormat.needs_conversion
  cases sample_rate with
  | none => simp [SAMPLE_RATE]
  | some r =>
    by_cases h : r = 0
    · simp [h, SAMPLE_RATE]
    · simp [h, SAMPLE_RATE]

/-- C9: a recognition result whose text strips to the empty string produces
the empty dict (`none`), which `process_audio_chunk` turns into `None`, so
no delta frame is emitted; and every emitted delta has a non-empty `append`
field.  The first conjunct justifies reading "whitespace-only" as "strips to
empty". -/
theorem empty_text_yields_no_delta (result_text : Option String)
    (result_segments : List Segment) (s : String) (d : Delta) :
    (s.data.all isPySpace = true → pyStrip s = "")
  ∧ (pyStrip (result_text.getD "") = "" →
      transcribe_chunk result_text result_segments = none
      ∧ emit_if_truthy (transcribe_chunk result_text result_segments) = none)
  ∧ (transcribe_chunk result_text result_segments = some d → d.append ≠ "") := by
  have heq : transcribe_chunk result_text result_segments =
      (if pyStrip (result_text.getD "") = "" then none
       else some { append := pyStrip (result_text.getD ""), segments := result_segments }) := by
    unfold transcribe_chunk
    cases result_text with
    | none => rfl
    | some u =>
      by_cases h : u = ""
      · simp [h]
      · simp [h]
  refine ⟨?_, ?_, ?_⟩
  · intro h
    unfold pyStrip
    have h1 : s.data.dropWhile isPySpace = [] :=
      List.dropWhile_eq_nil_iff.mpr (by
        intro x hx
        exact (List.all_eq_true.mp h) x hx)
    rw [h1]
    rfl
  · intro h
    rw [heq, if_pos h]
    exact ⟨rfl, rfl⟩
  · intro h
    rw [heq] at h
    by_cases hz : pyStrip (result_text.getD "") = ""
    · rw [if_pos hz] at h
      exact absurd h (by simp)
    · rw [if_neg hz] at h
      have hd : d =
          { append := pyStrip (result_text.getD ""),
            segments := result_segments } := (Option.some_inj.mp h).symm
      rw [hd]
      exact hz

/-- C9 witness: a whitespace-only text yields no delta and nothing is
emitted; a non-trivial text yields a delta with non-empty `append`. -/
theorem empty_text_yields_no_delta_witness :
    pyStrip " " = ""
  ∧ transcribe_chunk (some " ") ([] : List Segment) = none
  ∧ emit_if_truthy (transcribe_chunk (some " ") ([] : List Segment)) = none
  ∧ (({ append := "hi", segments := [] } : Delta)).append ≠ "" := by
  have h1 := (empty_text_yields_no_delta (some " ") [] " "
      ⟨"hi", []⟩).1 (by decide)
  have h2 := (empty_text_yields_no_delta (some " ") [] " "
      ⟨"hi", []⟩).2.1 (by decide)
  have h3 := (empty_text_yields_no_delta (some " hi ") [] " "
      ⟨"hi", []⟩).2.2 (by decide)
  exact ⟨h1, h2.1, h2.2, h3⟩

/-- C7 counterexample: the start command `{"type": "start"}` with no
`format` key is NOT rejected — `data.get("format", "webm")` silently selects
the `webm` container, and the handshake parses successfully to a
webm-format session at the default rate. -/
theorem missing_format_counterexample :
    parse_handshake (some [("type", .jstr "start")]) none
      = .ok (AudioFormat.make "webm" none) none := by decide

/-- C7 amended: a start command without a `format` field is accepted with
the format defaulted to `"webm"` rather than rejected: for every JSON
object with no `format` key, `parse_handshake` never fails the
unsupported-format check, and any successful parse carries format type
`"webm"`. -/
theorem missing_format_defaults_webm (data : List (String × JValue)) (fb : Option String)
    (hfmt : jget data "format" = none) :
    (∀ a m, parse_handshake (some data) fb = .ok a m → a.format_type = "webm")
  ∧ parse_handshake (some data) fb ≠ .invalid "Unsupported format" := by
  have hnf : normalized_format data = "webm" := by
    unfold normalized_format
    rw [hfmt]
    decide
  constructor
  · intro a m h
    simp only [parse_handshake, hnf] at h
    rw [if_neg (show ¬¬((SUPPORTED_STREAM_FORMATS ++ RAW_STREAM_FORMATS).contains "webm"
        = true) from by decide)] at h
    split at h
    · exact ParseResult.noConfusion h
    · split at h
      · exact ParseResult.noConfusion h
      · exact ParseResult.noConfusion h
      · split at h
        · split at h
          · injection h with h1 h2
            rw [← h1]
            rfl
          · exact ParseResult.noConfusion h
        · injection h with h1 h2
          rw [← h1]
          rfl
  · intro h
    simp only [parse_handshake, hnf] at h
    rw [if_neg (show ¬¬((SUPPORTED_STREAM_FORMATS ++ RAW_STREAM_FORMATS).contains "webm"
        = true) from by decide)] at h
    split at h
    · injection h with h1
      exact absurd h1 (by decide)
    · split at h
      · exact ParseResult.noConfusion h
      · injection h with h1
        exact absurd h1 (by decide)
      · split at h
        · split at h
          · exact ParseResult.noConfusion h
          · injection h with h1
            exact absurd h1 (by decide)
        · exact ParseResult.noConfusion h

/-- C7 witness: the amended theorem applied to the bare start command. -/
theorem missing_format_defaults_webm_witness :
    parse_handshake (some [("type", .jstr "start")]) none ≠ .invalid "Unsupported format" :=
  (missing_format_defaults_webm [("type", .jstr "start")] none rfl).2

/-- Constructed formats: `AudioFormat.__init__` can never record a sample rate of `0`: `0` is
falsy, so `sample_rate or SAMPLE_RATE` replaces it with the canonical rate. -/
theorem make_sample_rate_ne_zero (ft : String) (r : Option ℤ) :
    (AudioFormat.make ft r).sample_rate ≠ 0 := by
  unfold AudioFormat.make
  cases r with
  | none => simp [SAMPLE_RATE]
  | some v =>
    by_cases h : v = 0
    · simp [h, SAMPLE_RATE]
    · simp [h]

/-- C10 counterexample: the falsy rate value `""` is NOT treated as
"not provided": `int("")` raises `ValueError`, so the handshake is rejected
outright instead of defaulting the rate to 16000. -/
theorem falsy_rate_counterexample :
    jtruthy (.jstr "") = false
  ∧ parse_handshake (some [("type", .jstr "start"), ("format", .jstr "s16le"),
      ("rate", .jstr "")]) none = .invalid "invalid literal for int" := by
  exact ⟨rfl, by decide⟩

/-- C10 amended: a rate field that is absent, the number `0`, or the boolean
`false` (the falsy values `int()` maps to `0`) is treated as not provided
and the session rate defaults to the canonical 16000; `{"type": "start",
"format": "s16le"}` with no rate is accepted in direct-PCM mode
(`needs_conversion()` false); and a successfully parsed handshake can never
carry sample rate 0.  (Other falsy rate values are not defaulted: `""` is
rejected with a `ValueError` and `null`/`[]`/`{}` raise `TypeError`.) -/
theorem rate_defaulting (data : List (String × JValue)) (fb : Option String)
    (a : AudioFormat) (m : Option String) :
    ((jget data "rate" = none ∨ jget data "rate" = some (.jnum 0)
        ∨ jget data "rate" = some (.jbool false)) →
      parse_handshake (some data) fb = .ok a m → a.sample_rate = 16000)
  ∧ (parse_handshake (some [("type", .jstr "start"), ("format", .jstr "s16le")]) none
        = .ok (AudioFormat.make "s16le" none) none
      ∧ (AudioFormat.make "s16le" none).needs_conversion = false)
  ∧ (parse_handshake (some data) fb = .ok a m → a.sample_rate ≠ 0) := by
  refine ⟨?_, ⟨by decide, by decide⟩, ?_⟩
  · intro hr h
    have hint : pyInt ((jget data "rate").getD (.jnum 0)) = .ok 0 := by
      rcases hr with h0 | h0 | h0 <;> rw [h0] <;> rfl
    simp only [parse_handshake, hint] at h
    rw [if_pos trivial] at h
    split at h
    · exact ParseResult.noConfusion h
    · split at h
      · exact ParseResult.noConfusion h
      · split at h
        · split at h
          · injection h with h1 h2
            rw [← h1]
            rfl
          · exact ParseResult.noConfusion h
        · injection h with h1 h2
          rw [← h1]
          rfl
  · intro h
    simp only [parse_handshake] at h
    split at h
    · exact ParseResult.noConfusion h
    · split at h
      · exact ParseResult.noConfusion h
      · split at h
        · exact ParseResult.noConfusion h
        · exact ParseResult.noConfusion h
        · split at h
          · split at h
            · injection h with h1 h2
              rw [← h1]
              exact make_sample_rate_ne_zero _ _
            · exact ParseResult.noConfusion h
          · injection h with h1 h2
            rw [← h1]
            exact make_sample_rate_ne_zero _ _

/-- C10 witness: the amended theorem applied to the no-rate s16le start
command. -/
theorem rate_defaulting_witness :
    (AudioFormat.make "s16le" none).sample_rate = 16000
  ∧ parse_handshake (some [("type", .jstr "start"), ("format", .jstr "s16le")]) none
      = .ok (AudioFormat.make "s16le" none) none
  ∧ (AudioFormat.make "s16le" none).needs_conversion = false
  ∧ (AudioFormat.make "s16le" none).sample_rate ≠ 0 := by
  have base := rate_defaulting [("type", .jstr "start"), ("format", .jstr "s16le")] none
    (AudioFormat.make "s16le" none) none
  have hp := base.2.1.1
  exact ⟨base.1 (Or.inl rfl) hp, hp, base.2.1.2, base.2.2 hp⟩

/-- C6 counterexample: a start message with a disallowed model size but a
list-valued rate closes the connection with the internal-error code 1011,
not the protocol-error code 1002: `int([null])` raises `TypeError`, which
`parse_handshake` does not catch, so the controller's outer handler runs. -/
theorem bad_handshake_counterexample :
    effective_model_size [("type", .jstr "start"), ("format", .jstr "s16le"),
        ("rate", .jarr [.jnull]), ("model_size", .jstr "giant")] none = some "giant"
  ∧ ALLOWED_MODEL_SIZES.contains (pyLower "giant") = false
  ∧ handshake_outcome (some [("type", .jstr "start"), ("format", .jstr "s16le"),
        ("rate", .jarr [.jnull]), ("model_size", .jstr "giant")]) none
      = .internalError1011 := by
  exact ⟨by decide, by decide, by decide⟩

/-- C6 amended: every malformed-JSON handshake, and every JSON-object
handshake whose type is not `start`, whose normalized format is
unsupported, or whose model size is outside the allow-list, is answered by
closing the connection with protocol-error code 1002, before any session is
created — provided `int()` applied to the rate value does not raise
`TypeError` (a null/array/object-valued rate aborts with the internal-error
code 1011 instead). -/
theorem bad_handshake_rejected (message : Option (List (String × JValue)))
    (qms : Option String)
    (hbad : message = none ∨ ∃ data, message = some data ∧ handshake_bad data qms)
    (hrate : ∀ data, message = some data →
      pyInt ((jget data "rate").getD (.jnum 0)) ≠ .typeError) :
    handshake_outcome message qms = .rejected1002 := by
  have hparse : ∃ r, parse_handshake message qms = .invalid r := by
    rcases hbad with rfl | ⟨data, rfl, hb⟩
    · exact ⟨"malformed JSON", rfl⟩
    · simp only [parse_handshake]
      by_cases ht : isStartType (jget data "type") = true
      · rw [if_neg (not_not_intro ht)]
        by_cases hf : (SUPPORTED_STREAM_FORMATS ++ RAW_STREAM_FORMATS).contains
            (normalized_format data) = true
        · rw [if_neg (not_not_intro hf)]
          cases hr2 : pyInt ((jget data "rate").getD (.jnum 0)) with
          | typeError => exact absurd hr2 (hrate data rfl)
          | valueError => exact ⟨_, rfl⟩
          | ok n =>
            rcases hb with hb | hb | ⟨m, hm, hbadm⟩
            · rw [ht] at hb
              exact Bool.noConfusion hb
            · rw [hf] at hb
              exact Bool.noConfusion hb
            · simp only [hm]
              rw [if_neg (by rw [hbadm]; exact Bool.false_ne_true)]
              exact ⟨_, rfl⟩
        · rw [if_pos hf]
          exact ⟨_, rfl⟩
      · rw [if_pos ht]
        exact ⟨_, rfl⟩
  obtain ⟨r, hr⟩ := hparse
  unfold handshake_outcome
  rw [hr]

/-- C6 witness: a start command with the unsupported format `avi` is closed
with code 1002. -/
theorem bad_handshake_rejected_witness :
    handshake_outcome (some [("type", .jstr "start"), ("format", .jstr "avi")]) none
      = .rejected1002 :=
  bad_handshake_rejected (some [("type", .jstr "start"), ("format", .jstr "avi")]) none
    (Or.inr ⟨[("type", .jstr "start"), ("format", .jstr "avi")], rfl,
      Or.inr (Or.inl (by decide))⟩)
    (by
      intro data h
      injection h with h
      rw [← h]
      decide)

/-- Inversion: a `chunk` result means the buffer had un-transcribed bytes
and the offset advanced by `take - overlap_bytes` (clamped at zero). -/
theorem get_chunk_chunk_inv (s : SessionState) (a : List ℚ)
    (h : (get_audio_chunk_for_transcription s).1 = .chunk a) :
    s.transcribed_len < s.pcm_buffer.length
  ∧ (get_audio_chunk_for_transcription s).2 = { s with transcribed_len :=
      s.transcribed_len +
        (min chunk_bytes (s.pcm_buffer.length - s.transcribed_len) - overlap_bytes) } := by
  rcases le_or_lt s.pcm_buffer.length s.transcribed_len with hle | hlt
  · rw [get_chunk_of_ge s hle] at h
    exact ChunkResult.noConfusion h
  · refine ⟨hlt, ?_⟩
    cases hm : pcm16_to_float32 (chunk_window s) with
    | none =>
      rw [get_chunk_of_raises s hlt hm] at h
      exact ChunkResult.noConfusion h
    | some audio =>
      by_cases hz : audio.length = 0
      · rw [get_chunk_of_decode s hlt audio hm, if_pos hz] at h
        exact ChunkResult.noConfusion h
      · by_cases hq : meanSq audio < SILENCE_RMS ^ 2
        · rw [get_chunk_of_decode s hlt audio hm, if_neg hz, if_pos hq] at h
          exact ChunkResult.noConfusion h
        · rw [get_chunk_of_decode s hlt audio hm, if_neg hz, if_neg hq]

/-- The window length equals `take = min(chunk_bytes, available)` whenever
there is anything available. -/
theorem chunk_window_length (s : SessionState) :
    (chunk_window s).length
      = min chunk_bytes (s.pcm_buffer.length - s.transcribed_len) := by
  unfold chunk_window
  rw [List.length_take, List.length_drop]
  exact Nat.min_eq_left (min_le_right _ _)

/-- C5: for consecutive non-silent extractions (with arbitrary trailing
appends in between, and both windows at least `overlap_bytes` long, the
condition under which "the last/first `overlap_bytes` bytes" are defined),
the non-silent extraction advances `transcribed_len` by
`window length - overlap_bytes`, and the last `overlap_bytes` bytes of the
first window are exactly the first `overlap_bytes` bytes of the next
window — across both the intervening `trim_buffer` and the append. -/
theorem consecutive_extraction_overlap (s : SessionState) (extra : List ℕ)
    (a₁ a₂ : List ℚ)
    (h₁ : (get_audio_chunk_for_transcription s).1 = .chunk a₁)
    (h₂ : (get_audio_chunk_for_transcription
        (add_audio_data (trim_buffer (get_audio_chunk_for_transcription s).2) extra)).1
      = .chunk a₂)
    (hov₁ : overlap_bytes ≤ (chunk_window s).length)
    (hov₂ : overlap_bytes ≤ (chunk_window (add_audio_data
        (trim_buffer (get_audio_chunk_for_transcription s).2) extra)).length) :
    (get_audio_chunk_for_transcription s).2.transcribed_len
      = s.transcribed_len + ((chunk_window s).length - overlap_bytes)
  ∧ (chunk_window s).drop ((chunk_window s).length - overlap_bytes)
      = (chunk_window (add_audio_data
          (trim_buffer (get_audio_chunk_for_transcription s).2) extra)).take
          overlap_bytes := by
  obtain ⟨hlt, hs₁⟩ := get_chunk_chunk_inv s a₁ h₁
  set buf := s.pcm_buffer with hbuf
  set tl := s.transcribed_len with htl
  set tk₁ := min chunk_bytes (buf.length - tl) with htk₁
  have htk₁le : tk₁ ≤ buf.length - tl := min_le_right _ _
  have hwlen₁ : (chunk_window s).length = tk₁ := chunk_window_length s
  have hov₁' : overlap_bytes ≤ tk₁ := hwlen₁ ▸ hov₁
  -- the state after extraction n
  have hs₁' : (get_audio_chunk_for_transcription s).2
      = ⟨buf, tl + (tk₁ - overlap_bytes)⟩ := hs₁
  set t := tl + (tk₁ - overlap_bytes) with ht
  have htle : t ≤ buf.length := by omega
  -- the state after trim_buffer
  set k := trim_amount ⟨buf, t⟩ with hk
  have hkle : k ≤ t := Nat.sub_le _ _
  have htrim : trim_buffer ⟨buf, t⟩
      = ⟨buf.drop k, t - k⟩ := trim_buffer_eq ⟨buf, t⟩
  -- the state after the append
  have hs₂ : add_audio_data (trim_buffer (get_audio_chunk_for_transcription s).2) extra
      = ⟨buf.drop k ++ extra, t - k⟩ := by
    rw [hs₁', htrim]
    simp only [add_audio_data]
  -- the second window, pushed back into the untrimmed buffer
  have hdrop₂ : (buf.drop k ++ extra).drop (t - k) = buf.drop t ++ extra := by
    rw [List.drop_append_of_le_length (by rw [List.length_drop]; omega),
        List.drop_drop, Nat.add_sub_cancel' hkle]
  set tk₂ := min chunk_bytes ((buf.drop k ++ extra).length - (t - k)) with htk₂
  have hwin₂ : chunk_window (add_audio_data
      (trim_buffer (get_audio_chunk_for_transcription s).2) extra)
      = (buf.drop t ++ extra).take tk₂ := by
    rw [hs₂]
    unfold chunk_window
    rw [hdrop₂]
  have hov₂' : overlap_bytes ≤ tk₂ := by
    have h5 := hov₂
    rw [hwin₂, List.length_take] at h5
    exact le_trans h5 (Nat.min_le_left _ _)
  constructor
  · rw [hs₁', hwlen₁]
  · -- first overlap_bytes bytes of window 2
    have hrhs : (chunk_window (add_audio_data
        (trim_buffer (get_audio_chunk_for_transcription s).2) extra)).take overlap_bytes
        = (buf.drop t).take overlap_bytes := by
      rw [hwin₂, List.take_take, Nat.min_eq_left hov₂',
          List.take_append_of_le_length (by rw [List.length_drop]; omega)]
    -- last overlap_bytes bytes of window 1
    have hlhs : (chunk_window s).drop ((chunk_window s).length - overlap_bytes)
        = (buf.drop t).take overlap_bytes := by
      rw [hwlen₁]
      unfold chunk_window
      rw [← htk₁, ← hbuf, ← htl, List.drop_take, List.drop_drop]
      have e1 : tl + (tk₁ - overlap_bytes) = t := rfl
      have e2 : tk₁ - (tk₁ - overlap_bytes) = overlap_bytes := by omega
      rw [e1, e2]
    rw [hlhs, hrhs]

theorem patBuf_succ (m : ℕ) : patBuf (m + 1) = 0 :: 16 :: patBuf m := by
  simp [patBuf, List.replicate_succ]

theorem patBuf_length (m : ℕ) : (patBuf m).length = 2 * m := by
  induction m with
  | zero => rfl
  | succ n ih =>
    rw [patBuf_succ]
    simp only [List.length_cons, ih]
    omega

theorem patBuf_append (m k : ℕ) : patBuf m ++ patBuf k = patBuf (m + k) := by
  simp [patBuf, ← List.flatten_append, ← List.replicate_add]

theorem pairBytes_patBuf (m : ℕ) :
    pairBytes (patBuf m) = some (List.replicate m (4096 : ℤ)) := by
  induction m with
  | zero => rfl
  | succ n ih =>
    rw [patBuf_succ]
    rw [show pairBytes (0 :: 16 :: patBuf n)
        = (pairBytes (patBuf n)).map (toInt16 0 16 :: ·) from rfl]
    rw [ih]
    simp only [Option.map_some, List.replicate_succ]
    norm_num [toInt16]

theorem pcm16_patBuf (m : ℕ) :
    pcm16_to_float32 (patBuf m) = some (List.replicate m ((1 : ℚ) / 8)) := by
  unfold pcm16_to_float32
  rw [pairBytes_patBuf]
  show some ((List.replicate m (4096 : ℤ)).map (fun v : ℤ => ((v : ℚ) / 32768))) = _
  rw [List.map_replicate]
  norm_num

theorem meanSq_replicate (m : ℕ) (hm : m ≠ 0) (x : ℚ) :
    meanSq (List.replicate m x) = x ^ 2 := by
  unfold meanSq
  rw [List.map_replicate, List.sum_replicate, List.length_replicate, nsmul_eq_mul]
  have hm' : (m : ℚ) ≠ 0 := Nat.cast_ne_zero.mpr hm
  exact mul_div_cancel_left₀ _ hm'

theorem patBuf_window (m : ℕ) (hle : 2 * m ≤ chunk_bytes) :
    chunk_window ⟨patBuf m, 0⟩ = patBuf m := by
  unfold chunk_window
  simp only [List.drop_zero, patBuf_length, Nat.sub_zero]
  rw [Nat.min_eq_right hle, ← patBuf_length]
  exact List.take_length _

theorem get_chunk_patBuf (m : ℕ) (h0 : 0 < m) (hle : 2 * m ≤ chunk_bytes) :
    get_audio_chunk_for_transcription ⟨patBuf m, 0⟩
      = (.chunk (List.replicate m ((1 : ℚ) / 8)), ⟨patBuf m, 2 * m - overlap_bytes⟩) := by
  have hlt : (0 : ℕ) < (patBuf m).length := by
    rw [patBuf_length]; omega
  have hdec : pcm16_to_float32 (chunk_window ⟨patBuf m, 0⟩)
      = some (List.replicate m ((1 : ℚ) / 8)) := by
    rw [patBuf_window m hle]
    exact pcm16_patBuf m
  rw [get_chunk_of_decode ⟨patBuf m, 0⟩ hlt _ hdec]
  rw [if_neg (by simp [h0.ne'])]
  rw [if_neg (by
    rw [meanSq_replicate m h0.ne']
    norm_num [SILENCE_RMS])]
  have hoff : (⟨patBuf m, 0⟩ : SessionState).transcribed_len
      + (min chunk_bytes ((⟨patBuf m, 0⟩ : SessionState).pcm_buffer.length
          - (⟨patBuf m, 0⟩ : SessionState).transcribed_len) - overlap_bytes)
      = 2 * m - overlap_bytes := by
    show 0 + (min chunk_bytes ((patBuf m).length - 0) - overlap_bytes) = 2 * m - overlap_bytes
    rw [patBuf_length, Nat.sub_zero, Nat.min_eq_right hle, Nat.zero_add]
  rw [hoff]

/-- C5 witness: the overlap theorem applied to a 16000-byte non-silent
buffer followed by one more appended sample pair: the first extraction
window is the whole buffer, the advance is zero (window length equals the
overlap), and the second window re-includes it. -/
theorem consecutive_extraction_overlap_witness :
    (get_audio_chunk_for_transcription ⟨patBuf 8000, 0⟩).2.transcribed_len
      = (⟨patBuf 8000, 0⟩ : SessionState).transcribed_len
        + ((chunk_window ⟨patBuf 8000, 0⟩).length - overlap_bytes)
  ∧ (chunk_window ⟨patBuf 8000, 0⟩).drop
      ((chunk_window ⟨patBuf 8000, 0⟩).length - overlap_bytes)
      = (chunk_window (add_audio_data
          (trim_buffer (get_audio_chunk_for_transcription ⟨patBuf 8000, 0⟩).2)
          (patBuf 1))).take overlap_bytes := by
  have hch := get_chunk_patBuf 8000 (by norm_num) (by norm_num [chunk_bytes])
  have h₁ : (get_audio_chunk_for_transcription ⟨patBuf 8000, 0⟩).1
      = .chunk (List.replicate 8000 ((1 : ℚ) / 8)) := by rw [hch]
  have hsnd : (get_audio_chunk_for_transcription ⟨patBuf 8000, 0⟩).2
      = ⟨patBuf 8000, 0⟩ := by
    rw [hch]
    norm_num [overlap_bytes]
  have htr : trim_buffer ⟨patBuf 8000, 0⟩ = ⟨patBuf 8000, 0⟩ := by
    rw [trim_buffer_eq]
    simp [trim_amount]
  have hcomp : add_audio_data
      (trim_buffer (get_audio_chunk_for_transcription ⟨patBuf 8000, 0⟩).2) (patBuf 1)
      = ⟨patBuf 8001, 0⟩ := by
    rw [hsnd, htr]
    simp only [add_audio_data]
    rw [patBuf_append]
  have h₂ : (get_audio_chunk_for_transcription (add_audio_data
      (trim_buffer (get_audio_chunk_for_transcription ⟨patBuf 8000, 0⟩).2)
      (patBuf 1))).1 = .chunk (List.replicate 8001 ((1 : ℚ) / 8)) := by
    rw [hcomp, get_chunk_patBuf 8001 (by norm_num) (by norm_num [chunk_bytes])]
  have hov₁ : overlap_bytes ≤ (chunk_window ⟨patBuf 8000, 0⟩).length := by
    rw [chunk_window_length]
    simp only [patBuf_length]
    decide
  have hov₂ : overlap_bytes ≤ (chunk_window (add_audio_data
      (trim_buffer (get_audio_chunk_for_transcription ⟨patBuf 8000, 0⟩).2)
      (patBuf 1))).length := by
    rw [hcomp, chunk_window_length]
    simp only [patBuf_length]
    decide
  exact consecutive_extraction_overlap ⟨patBuf 8000, 0⟩ (patBuf 1)
    (List.replicate 8000 ((1 : ℚ) / 8)) (List.replicate 8001 ((1 : ℚ) / 8))
    h₁ h₂ hov₁ hov₂

end STT
